import Mathlib

/-!
Verification development for the AsmEvidenceProfile depth-plotting core
(src/static/depth_plotter.py and src/static/integrated_montage.py).

Conventions of the shallow embedding:
* A depth file is a list of tokenized lines: a header line carries the
  sequence id (the text after the leading marker), a value line carries the
  result of the python int() conversion of the stripped line, with `none`
  standing for a ValueError.
* Python dicts keyed by strings become association lists with
  insert-or-overwrite semantics; python sets of ids become lists whose
  membership is the only thing consulted.
* numpy float arithmetic is embedded exactly over the rationals.
-/

/-- One line of a FASTA-like depth file, after stripping: either a header
carrying the sequence id, or a body line carrying the result of integer
conversion (`none` when the text does not parse as an integer). -/
inductive Line where
  | header (id : String)
  | value (v : Option Int)
deriving DecidableEq

namespace DepthParser

/-- Mutable state of the single-pass parse loop in
DepthParser.parse_depth_file_filtered. -/
structure ParseState where
  sequences : List (String × List Nat)
  current_seq : Option String
  current_depth_array : Option (List Nat)
  include_current : Bool
deriving DecidableEq

/-- Insert-or-overwrite for a string-keyed association list, mirroring
python dict assignment `self.sequences[current_seq] = current_depth_array`. -/
def dictInsert (m : List (String × List Nat)) (k : String) (v : List Nat) :
    List (String × List Nat) :=
  if m.any (fun p => p.1 == k) then
    m.map (fun p => if p.1 == k then (k, v) else p)
  else
    m ++ [(k, v)]

/-- Body-line handling of parse_depth_file_filtered (lines 100-111 of
depth_plotter.py): append the value when it lies in 0..65535, append the cap
65535 when it exceeds it, drop negatives, and skip lines whose integer
conversion failed. -/
def process_body_line (arr : List Nat) (v : Option Int) : List Nat :=
  match v with
  | none => arr
  | some depth =>
      if 0 ≤ depth ∧ depth ≤ 65535 then arr ++ [depth.toNat]
      else if 65535 < depth then arr ++ [65535]
      else arr

/-- Commit of the finished current sequence, performed on seeing the next
header and at end of file: the python guard is
`if current_seq and current_depth_array is not None and include_current`,
where an empty current id is falsy and commits nothing. -/
def commit (st : ParseState) : List (String × List Nat) :=
  match st.current_seq, st.current_depth_array, st.include_current with
  | some cs, some arr, true =>
      if cs == "" then st.sequences else dictInsert st.sequences cs arr
  | _, _, _ => st.sequences

/-- One iteration of the parse loop of parse_depth_file_filtered. -/
def stepLine (targets : List String) (st : ParseState) : Line → ParseState
  | Line.header id =>
      { sequences := commit st
        current_seq := some id
        include_current := decide (id ∈ targets)
        current_depth_array := if id ∈ targets then some [] else none }
  | Line.value v =>
      match st.include_current, st.current_depth_array with
      | true, some arr =>
          { st with current_depth_array := some (process_body_line arr v) }
      | _, _ => st

/-- DepthParser.parse_depth_file_filtered: single pass over the lines,
followed by the end-of-file commit. Returns the sequences dict. -/
def parse_depth_file_filtered (targets : List String) (file : List Line) :
    List (String × List Nat) :=
  commit (file.foldl (stepLine targets) ⟨[], none, none, false⟩)

end DepthParser

namespace SynchronizedDepthReader

open DepthParser

/-- Keys of the union of the two parsed maps, deduplicated; the python
`list(set(a) | set(b))` has unspecified order, the embedding fixes one. -/
def unionKeys (a b : List (String × List Nat)) : List String :=
  ((a.map Prod.fst) ++ (b.map Prod.fst)).dedup

/-- SynchronizedDepthReader._should_process_sequence: the regions dict is
falsy both when absent and when empty. -/
def should_process (targets : List String) (regions : Option (List String))
    (id : String) : Bool :=
  if targets ≠ [] ∧ id ∉ targets then false
  else
    match regions with
    | some (r :: rs) => decide (id ∈ r :: rs)
    | _ => true

/-- Association-list lookup, mirroring dict.get. -/
def lookup (m : List (String × List Nat)) (k : String) : Option (List Nat) :=
  match m.find? (fun p => p.1 == k) with
  | some p => some p.2
  | none => none

/-- SynchronizedDepthReader.read_sequences: parse the two sources
independently with the same target set, choose the ids to yield (the target
set when non-empty, otherwise the union of parsed keys), filter them, and
yield each id with its two arrays (an empty array standing in for a missing
side). The python generator's yield order over a set is unspecified; the
embedding lists the yields in the fixed order of the id list. -/
def read_sequences (hifi_file ont_file : Option (List Line))
    (targets : List String) (regions : Option (List String)) :
    List (String × List Nat × List Nat) :=
  let hifi_map := match hifi_file with
    | some f => parse_depth_file_filtered targets f
    | none => []
  let ont_map := match ont_file with
    | some f => parse_depth_file_filtered targets f
    | none => []
  let seq_ids := if targets ≠ [] then targets else unionKeys hifi_map ont_map
  (seq_ids.filter (should_process targets regions)).map
    (fun id => (id, (lookup hifi_map id).getD [], (lookup ont_map id).getD []))

end SynchronizedDepthReader

/-- Mask-scanning loop shared verbatim (modulo the mask) by
DepthRegionAnalyzer._find_continuous_regions,
DataProcessor._find_non_zero_segments and DataProcessor._mask_to_regions:
`i` is the absolute index of the head of the remaining mask and the optional
accumulator holds the start of the currently open run. -/
def fcrGo : List Bool → Nat → Option Nat → List (Nat × Nat)
  | [], _, none => []
  | [], i, some s => [(s, i - 1)]
  | true :: rest, i, none => fcrGo rest (i + 1) (some i)
  | false :: rest, i, none => fcrGo rest (i + 1) none
  | true :: rest, i, some s => fcrGo rest (i + 1) (some s)
  | false :: rest, i, some s => (s, i - 1) :: fcrGo rest (i + 1) none

namespace DepthRegionAnalyzer

/-- DepthRegionAnalyzer._find_continuous_regions: maximal runs of True in a
boolean mask as closed index intervals (the empty mask yields no regions,
matching the early return). -/
def _find_continuous_regions (mask : List Bool) : List (Nat × Nat) :=
  fcrGo mask 0 none

/-- Result record of DepthRegionAnalyzer.analyze_depth_regions. -/
structure RegionAnalysis where
  zero_depth : List (Nat × Nat)
  low_depth : List (Nat × Nat)
  normal_depth : List (Nat × Nat)
deriving DecidableEq

/-- DepthRegionAnalyzer.analyze_depth_regions: combine the two depth arrays
(elementwise sum when both are present, otherwise whichever is present) and
classify positions by the min_safe_depth threshold. The numpy sum requires
equal lengths (it raises otherwise); zipWith agrees with it on all inputs
the python code accepts. -/
def analyze_depth_regions (hifi_depths ont_depths : List Nat)
    (min_safe_depth : Nat) : RegionAnalysis :=
  let combined :=
    if ont_depths ≠ [] ∧ hifi_depths ≠ [] then
      List.zipWith (· + ·) hifi_depths ont_depths
    else if ont_depths ≠ [] then ont_depths
    else hifi_depths
  { zero_depth := _find_continuous_regions (combined.map (fun v => decide (v = 0)))
    low_depth := _find_continuous_regions
      (combined.map (fun v => decide (0 < v) && decide (v < min_safe_depth)))
    normal_depth := _find_continuous_regions
      (combined.map (fun v => decide (min_safe_depth ≤ v))) }

end DepthRegionAnalyzer

/-- Arithmetic mean of a list of depths as an exact rational (np.mean). -/
def listMean (l : List Nat) : ℚ :=
  (l.map (fun v : ℕ => (v : ℚ))).sum / (l.length : ℚ)

namespace DataProcessor

/-- DataProcessor._find_non_zero_segments: maximal runs of non-zero values;
the loop is the shared mask scan applied to the negated zero mask. -/
def _find_non_zero_segments (depths : List Nat) : List (Nat × Nat) :=
  fcrGo (depths.map (fun v => decide (v ≠ 0))) 0 none

/-- DataProcessor.calculate_windowed_stats: split into non-zero segments,
then cut each segment into windows of window_size (the last one shorter) and
record (mean, absolute start, absolute end) per non-empty window. The python
function returns three parallel arrays that its callers zip back together;
the embedding returns the zipped list of triples directly. -/
def calculate_windowed_stats (window_size : Nat) (depths : List Nat) :
    List (ℚ × Nat × Nat) :=
  if depths.length = 0 then []
  else
    (_find_non_zero_segments depths).flatMap (fun seg =>
      let segment_start := seg.1
      let segment_depths := (depths.drop segment_start).take (seg.2 - segment_start + 1)
      let segment_length := segment_depths.length
      if segment_length = 0 then []
      else
        let base := max 1 (segment_length / window_size)
        let num_windows := if segment_length % window_size ≠ 0 then base + 1 else base
        (List.range num_windows).filterMap (fun i =>
          let window_start := i * window_size
          let window_end := min ((i + 1) * window_size) segment_length
          let window_data := (segment_depths.drop window_start).take (window_end - window_start)
          if window_data.length ≠ 0 then
            some (listMean window_data, segment_start + window_start,
                  segment_start + window_end - 1)
          else none))

/-- Result record of DataProcessor.analyze_depth_regions (this standalone
variant produces only the zero and low region lists that the plots use). -/
structure DPRegions where
  zero : List (Nat × Nat)
  low : List (Nat × Nat)
deriving DecidableEq

/-- DataProcessor.analyze_depth_regions: zero and low-depth regions of a
single dataset at the min_safe_depth threshold. -/
def analyze_depth_regions (depths : List Nat) (min_safe_depth : Nat) : DPRegions :=
  if depths.length = 0 then { zero := [], low := [] }
  else
    { zero := fcrGo (depths.map (fun v => decide (v = 0))) 0 none
      low := fcrGo
        (depths.map (fun v => decide (0 < v) && decide (v < min_safe_depth))) 0 none }

end DataProcessor

namespace SlidingWindowProcessor

/-- SlidingWindowProcessor.calculate_sliding_window: moving average over the
whole sequence. A sequence shorter than the window collapses to a single
point at the middle index carrying the whole-sequence mean; otherwise the
positions are the centers of the length - window_size + 1 valid windows and
the values their means (the np.convolve computation, embedded exactly). -/
def calculate_sliding_window (window_size : Nat) (depths : List Nat) :
    List Nat × List ℚ :=
  if depths.length = 0 then ([], [])
  else if depths.length < window_size then
    ([depths.length / 2], [listMean depths])
  else
    let num_valid_windows := depths.length - window_size + 1
    ((List.range num_valid_windows).map (fun j => j + (window_size - 1) / 2),
     (List.range num_valid_windows).map
       (fun j => listMean ((depths.drop j).take window_size)))

end SlidingWindowProcessor

namespace DepthPlotter

/-- Observable side effects of DepthPlotter.plot_single_sequence, in the
order the python code performs them: figure creation (plt.subplots) and the
figure save of _save_plot. -/
inductive PlotEffect where
  | createFigure
  | saveFigure (path : String)
deriving DecidableEq

/-- Message of the ValueError raised on a HiFi/ONT length mismatch
(plot_single_sequence lines 486-490). -/
def mismatch_message (seq_id : String) (hifi_len ont_len : Nat) : String :=
  "Error: HiFi and ONT data length mismatch for sequence " ++ seq_id ++
  ". HiFi length: " ++ toString hifi_len ++ ", ONT length: " ++ toString ont_len ++
  ". Both datasets must have the same length."

/-- Output filename of DepthPlotter._save_plot; the python `if regions:` is
falsy for both None and an empty list. -/
def save_filename (seq_id : String) (regions : Option (List (Nat × Nat)))
    (output_format : String) : String :=
  match regions with
  | some (r :: _) =>
      seq_id ++ "_" ++ toString r.1 ++ "-" ++ toString r.2 ++ "." ++ output_format
  | _ => seq_id ++ "." ++ output_format

/-- DepthPlotter.plot_single_sequence, restricted to its validation and
effect structure: the no-data case prints and returns None with no effects;
the shape-mismatch case raises the ValueError before any matplotlib call;
otherwise a figure is created, drawn (the drawing primitives are the
out-of-scope plotting collaborator) and saved, and the path returned. -/
def plot_single_sequence (seq_id : String) (hifi_depths ont_depths : List Nat)
    (regions : Option (List (Nat × Nat))) (output_format : String) :
    List PlotEffect × Except String (Option String) :=
  let has_hifi := hifi_depths.length > 0
  let has_ont := ont_depths.length > 0
  if ¬has_hifi ∧ ¬has_ont then
    ([], Except.ok none)
  else if has_hifi ∧ has_ont ∧ hifi_depths.length ≠ ont_depths.length then
    ([], Except.error (mismatch_message seq_id hifi_depths.length ont_depths.length))
  else
    let path := save_filename seq_id regions output_format
    ([PlotEffect.createFigure, PlotEffect.saveFigure path], Except.ok (some path))

end DepthPlotter

/-- Rendered primitive of the integrated montage: the embedding keeps the
geometry and class of each emitted SVG rect/line element (the python code
assembles the same data into formatted strings). -/
inductive Elem where
  | rect (x y w h : ℚ) (cls : String)
  | line (x1 y1 x2 y2 : ℚ) (cls : String)
deriving DecidableEq

namespace Montage

open DataProcessor

/-- Mean of the strictly positive entries, 0.0 when there are none
(build_bars_for_seq lines 404-406). -/
def nonzero_mean (l : List Nat) : ℚ :=
  let nz := l.filter (fun v => decide (0 < v))
  if nz.length = 0 then 0 else (nz.map (fun v : ℕ => (v : ℚ))).sum / (nz.length : ℚ)

/-- Per-dataset cap: nonzero mean times the max-depth-ratio when the mean
is positive, else 0 (build_bars_for_seq lines 407-408). -/
def cap_of (avg rmax : ℚ) : ℚ :=
  if 0 < avg then avg * rmax else 0

/-- Shared cap of the two halves, replaced by 1.0 when non-positive
(build_bars_for_seq lines 410-412). -/
def global_cap_of (cap_h cap_n : ℚ) : ℚ :=
  if max cap_h cap_n ≤ 0 then 1 else max cap_h cap_n

/-- Clamping bound actually used for one dataset: its own cap when
positive, otherwise the shared cap (build_bars_for_seq lines 439 and 474). -/
def dataset_cap (cap global_cap : ℚ) : ℚ :=
  if 0 < cap then cap else global_cap

/-- Background rectangles for one region list of build_bars_for_seq
(zero-width rectangles are skipped). -/
def bg_for_regions (region_list : List (Nat × Nat)) (x_left span denom y dh : ℚ)
    (cls : String) : List Elem :=
  region_list.filterMap (fun r =>
    let x1 := x_left + ((r.1 : ℚ) / denom) * span
    let x2 := x_left + ((r.2 : ℚ) / denom) * span
    let w := max 0 (x2 - x1)
    if w ≤ 0 then none else some (Elem.rect x1 y w dh cls))

/-- Bar rectangles of the upper (HiFi) half of a combined panel: each
window mean is clamped to the dataset cap and scaled by the shared cap, and
the bar grows upward from the baseline. -/
def bar_elems_top (wins : List (ℚ × Nat × Nat)) (x_left span denom dh cap
    global_cap baseline : ℚ) : List Elem :=
  wins.map (fun w =>
    let center := ((w.2.1 : ℚ) + (w.2.2 : ℚ)) / 2
    let width_bp := (w.2.2 : ℚ) - (w.2.1 : ℚ) + 1
    let x_center := x_left + (center / denom) * span
    let w_px := span * (width_bp / denom)
    let m_clamped := min w.1 cap
    let h_px := dh * (m_clamped / global_cap)
    let x_rect := x_center - w_px / 2
    Elem.rect x_rect (baseline - h_px) w_px h_px "depth-top")

/-- Bar rectangles of the lower (ONT) half: same scaling, growing downward
from the baseline. -/
def bar_elems_bottom (wins : List (ℚ × Nat × Nat)) (x_left span denom dh cap
    global_cap baseline : ℚ) : List Elem :=
  wins.map (fun w =>
    let center := ((w.2.1 : ℚ) + (w.2.2 : ℚ)) / 2
    let width_bp := (w.2.2 : ℚ) - (w.2.1 : ℚ) + 1
    let x_center := x_left + (center / denom) * span
    let w_px := span * (width_bp / denom)
    let m_clamped := min w.1 cap
    let h_px := dh * (m_clamped / global_cap)
    let x_rect := x_center - w_px / 2
    Elem.rect x_rect baseline w_px h_px "depth-bottom")

/-- Dashed mean line of the upper half, emitted only when the average of
the window means is positive. -/
def mean_line_top (wins : List (ℚ × Nat × Nat)) (x_left x_right dh cap
    global_cap baseline : ℚ) : List Elem :=
  let avg := if wins.length = 0 then 0 else (wins.map (fun w => w.1)).sum / (wins.length : ℚ)
  if 0 < avg then
    let avg_clamped := min avg cap
    [Elem.line x_left (baseline - dh * (avg_clamped / global_cap))
       x_right (baseline - dh * (avg_clamped / global_cap)) "mean"]
  else []

/-- Dashed mean line of the lower half. -/
def mean_line_bottom (wins : List (ℚ × Nat × Nat)) (x_left x_right dh cap
    global_cap baseline : ℚ) : List Elem :=
  let avg := if wins.length = 0 then 0 else (wins.map (fun w => w.1)).sum / (wins.length : ℚ)
  if 0 < avg then
    let avg_clamped := min avg cap
    [Elem.line x_left (baseline + dh * (avg_clamped / global_cap))
       x_right (baseline + dh * (avg_clamped / global_cap)) "mean"]
  else []

/-- build_bars_for_seq of integrated_montage.py: background region
rectangles, upper (HiFi) bars with mean line, lower (ONT) bars with mean
line, and the baseline y of the combined panel. `rmax` is the
max-depth-ratio argument and `dh` the depth panel height. -/
def build_bars_for_seq (hifi ont : List Nat) (x_left x_right panel_origin_y dh
    rmax : ℚ) (window_size min_safe : Nat) :
    List Elem × List Elem × List Elem × ℚ :=
  let seq_len := max hifi.length ont.length
  if seq_len = 0 then ([], [], [], panel_origin_y + dh)
  else
    let avg_h_nonzero := nonzero_mean hifi
    let avg_n_nonzero := nonzero_mean ont
    let cap_h := cap_of avg_h_nonzero rmax
    let cap_n := cap_of avg_n_nonzero rmax
    let global_cap := global_cap_of cap_h cap_n
    let baseline_y := panel_origin_y + dh
    let span := x_right - x_left
    let denom : ℚ := (max 1 (seq_len - 1) : Nat)
    let top_half :=
      if hifi.length ≠ 0 then
        let wins := calculate_windowed_stats window_size hifi
        let regs := DataProcessor.analyze_depth_regions hifi min_safe
        let hifi_cap := dataset_cap cap_h global_cap
        (bg_for_regions regs.zero x_left span denom (baseline_y - dh) dh "depth-zero-bg"
           ++ bg_for_regions regs.low x_left span denom (baseline_y - dh) dh "depth-low-bg",
         bar_elems_top wins x_left span denom dh hifi_cap global_cap baseline_y
           ++ mean_line_top wins x_left x_right dh hifi_cap global_cap baseline_y)
      else ([], [])
    let bottom_half :=
      if ont.length ≠ 0 then
        let wins := calculate_windowed_stats window_size ont
        let regs := DataProcessor.analyze_depth_regions ont min_safe
        let ont_cap := dataset_cap cap_n global_cap
        (bg_for_regions regs.zero x_left span denom baseline_y dh "depth-zero-bg"
           ++ bg_for_regions regs.low x_left span denom baseline_y dh "depth-low-bg",
         bar_elems_bottom wins x_left span denom dh ont_cap global_cap baseline_y
           ++ mean_line_bottom wins x_left x_right dh ont_cap global_cap baseline_y)
      else ([], [])
    (top_half.1 ++ bottom_half.1, top_half.2, bottom_half.2, baseline_y)

end Montage

namespace Collision

/-- One chromosome-track row rectangle as extracted by _collect_chro_tracks
(x_left, y_top, width, height). -/
structure Track where
  x : ℚ
  y : ℚ
  w : ℚ
  h : ℚ
deriving DecidableEq

/-- Rendered markup of one LINKVIEW invocation, abstracted to an identifier
for its contents plus the scale-bar bounding box that _extract_scale_bbox
reads back from it ((x, y, width, height), absent when the markup holds no
scale-bbox rect). The collision search inspects nothing else of the markup
and threads it through unchanged. -/
structure Render where
  inner : Nat
  scaleBBox : Option (ℚ × ℚ × ℚ × ℚ)
deriving DecidableEq

/-- Geometry that run computes before the collision search (lines 207-234):
track anchors shifted by the global offset, panel block tops and the
translation applied to the alignment contents. -/
structure Layout where
  xLeftTop : ℚ
  xRightTop : ℚ
  xLeftBottom : ℚ
  xRightBottom : ℚ
  yTop : ℚ
  hTop : ℚ
  yBottom : ℚ
  hBottom : ℚ
  blockYTop : ℚ
  blockYBottom : ℚ
  middleY : ℚ
deriving DecidableEq

/-- Panel placement of run: anchor the two combined panels to the first and
last track rows, shift everything down when the top panel would start above
y = 0, then apply the explicit top margin. Returns none when no track rows
were extracted (the RuntimeError case). `dh` is depth_height, `pg` the panel
gap and `tm` the top margin (already clamped to be non-negative). -/
def computeLayout (tracks : List Track) (dh pg tm : ℚ) : Option Layout :=
  match tracks with
  | [] => none
  | t1 :: rest =>
      let tb := match rest with | [] => t1 | t2 :: _ => t2
      let bTop0 := t1.y - pg - 2 * dh
      let bBottom0 := tb.y + tb.h + pg
      let off0 := if bTop0 < 0 then -bTop0 else 0
      let off := off0 + max 0 tm
      some { xLeftTop := t1.x, xRightTop := t1.x + t1.w
             xLeftBottom := tb.x, xRightBottom := tb.x + tb.w
             yTop := t1.y + off, hTop := t1.h
             yBottom := tb.y + off, hBottom := tb.h
             blockYTop := bTop0 + off, blockYBottom := bBottom0 + off
             middleY := off }

/-- Axis-aligned overlap test _overlaps of run, on (x1, y1, x2, y2) boxes. -/
def overlapsQ (a b : ℚ × ℚ × ℚ × ℚ) : Bool :=
  !(decide (a.2.2.1 ≤ b.1) || decide (b.2.2.1 ≤ a.1) ||
    decide (a.2.2.2 ≤ b.2.1) || decide (b.2.2.2 ≤ a.2.1))

/-- The two depth-panel rectangles _depth_rects of run. -/
def depthRects (L : Layout) (dh : ℚ) : List (ℚ × ℚ × ℚ × ℚ) :=
  [(L.xLeftTop, L.blockYTop, L.xRightTop, L.blockYTop + 2 * dh),
   (L.xLeftBottom, L.blockYBottom, L.xRightBottom, L.blockYBottom + 2 * dh)]

/-- The absolute scale-bar box _scale_bbox_abs of run: the extracted box
translated down by the middle offset, in (x1, y1, x2, y2) form. -/
def scaleBBoxAbs (L : Layout) (r : Render) : Option (ℚ × ℚ × ℚ × ℚ) :=
  r.scaleBBox.map (fun b => (b.1, b.2.1 + L.middleY, b.1 + b.2.2.1, b.2.1 + b.2.2.2 + L.middleY))

/-- Overlap of an absolute scale-bar box with either depth panel. -/
def hitAny (L : Layout) (dh : ℚ) (sb : ℚ × ℚ × ℚ × ℚ) : Bool :=
  (depthRects L dh).any (fun r => overlapsQ sb r)

/-- A regenerated render is accepted when it carries no scale-bar box or
when its absolute box overlaps neither depth panel. -/
def acceptRender (L : Layout) (dh : ℚ) (r : Render) : Bool :=
  match scaleBBoxAbs L r with
  | none => true
  | some sb => !hitAny L dh sb

/-- Clamp to the unit interval, max(0.0, min(1.0, x)). -/
def clamp01 (x : ℚ) : ℚ := max 0 (min 1 x)

/-- The quick default-position check of run (line 256): the default
absolute y of the scale bar falls inside either panel's vertical extent.
`hsvg` is the svg_height argument and `dr` the default scale_y_ratio. -/
def defaultHits (L : Layout) (hsvg dh dr : ℚ) : Bool :=
  let default_abs_y := L.middleY + hsvg * dr
  (decide (L.blockYTop ≤ default_abs_y) &&
     decide (default_abs_y ≤ L.blockYTop + 2 * dh)) ||
  (decide (L.blockYBottom ≤ default_abs_y) &&
     decide (default_abs_y ≤ L.blockYBottom + 2 * dh))

/-- Vertical gap between the two track rows. -/
def rowGap (L : Layout) : ℚ := max 0 (L.yBottom - (L.yTop + L.hTop))

/-- The safe ratio run tries first after a default collision: 75 percent
into the row gap, at least 10px above the bottom row, clamped to [0, 1]. -/
def safe_r (L : Layout) (hsvg : ℚ) : ℚ :=
  clamp01 (min (L.yBottom - 10) (L.yTop + L.hTop + rowGap L * (3 / 4)) / hsvg)

/-- The ordered candidate ratios of the default-collision path (60 percent
and 30 percent into the row gap, then 0.95). -/
def candList (L : Layout) (hsvg : ℚ) : List ℚ :=
  [clamp01 ((L.yTop + L.hTop + rowGap L * (6 / 10)) / hsvg),
   clamp01 ((L.yTop + L.hTop + rowGap L * (3 / 10)) / hsvg),
   19 / 20]

/-- The candidate loop shared by both relocation paths of run: regenerate at
each ratio in turn, accept the first render without a scale-bar box or
whose box clears both panels, and fall back to the render that preceded the
loop when every candidate still overlaps. -/
def tryCands (g : ℚ → Render) (L : Layout) (dh : ℚ) :
    List ℚ → Render → Render
  | [], fallback => fallback
  | c :: rest, fallback =>
      let r := g c
      match scaleBBoxAbs L r with
      | none => r
      | some sb => if hitAny L dh sb then tryCands g L dh rest fallback else r

/-- The collision-avoidance portion of run (lines 252-304), with the
external LINKVIEW generator modelled as the pure function `g` from the
forced scale_y_ratio to the regenerated markup: decide which render of the
alignment diagram the composition keeps. -/
def searchRender (g : ℚ → Render) (L : Layout) (hsvg dh dr : ℚ) : Render :=
  let r0 := g dr
  if defaultHits L hsvg dh dr then
    let rS := g (safe_r L hsvg)
    match scaleBBoxAbs L rS with
    | none => rS
    | some sb =>
        if hitAny L dh sb then tryCands g L dh (candList L hsvg) rS else rS
  else
    match scaleBBoxAbs L r0 with
    | none => r0
    | some sb =>
        if hitAny L dh sb then
          tryCands g L dh [(0.42 : ℚ), (0.12 : ℚ), (0.95 : ℚ)] r0
        else r0

/-- The geometry extraction plus collision search of run: fails (none) when
no chromosome tracks exist, otherwise returns the retained render. -/
def collisionAvoid (g : ℚ → Render) (tracks : List Track)
    (dh pg tm hsvg dr : ℚ) : Option Render :=
  match computeLayout tracks dh pg tm with
  | none => none
  | some L => some (searchRender g L hsvg dh dr)

end Collision

/-! Lemma layer: membership and ordering structure of the mask-scanning
region extraction. -/

/-- Index i is covered by one of the closed intervals of a region list. -/
def memRegions (i : Nat) (rs : List (Nat × Nat)) : Prop :=
  ∃ p ∈ rs, p.1 ≤ i ∧ i ≤ p.2

instance (i : Nat) (rs : List (Nat × Nat)) : Decidable (memRegions i rs) :=
  List.decidableBEx _ rs

theorem memRegions_nil (k : Nat) : ¬ memRegions k [] := by
  simp [memRegions]

theorem memRegions_cons (k : Nat) (p : Nat × Nat) (rs : List (Nat × Nat)) :
    memRegions k (p :: rs) ↔ (p.1 ≤ k ∧ k ≤ p.2) ∨ memRegions k rs := by
  simp [memRegions]

/-- Characterization of the scan loop: with no open run, index k is covered
by the output exactly when it indexes a True entry of the remaining mask;
with a run open since s < i, the indices s..i-1 are additionally covered. -/
theorem fcrGo_mem (mask : List Bool) : ∀ (i k : Nat),
    (memRegions k (fcrGo mask i none) ↔
       i ≤ k ∧ k - i < mask.length ∧ mask.getD (k - i) false = true) ∧
    (∀ s, s < i →
       (memRegions k (fcrGo mask i (some s)) ↔
         (s ≤ k ∧ k < i) ∨
           (i ≤ k ∧ k - i < mask.length ∧ mask.getD (k - i) false = true))) := by
  induction mask with
  | nil =>
    intro i k
    constructor
    · simp [fcrGo, memRegions]
    · intro s hs
      simp only [fcrGo, memRegions_cons, memRegions_nil, or_false, List.length_nil]
      constructor
      · rintro ⟨h1, h2⟩
        exact Or.inl ⟨h1, by omega⟩
      · rintro (⟨h1, h2⟩ | ⟨h1, h2, h3⟩)
        · exact ⟨h1, by omega⟩
        · omega
  | cons b rest ih =>
    intro i k
    have ihnone := (ih (i + 1) k).1
    have ihsome := (ih (i + 1) k).2
    constructor
    · cases b
      · rw [show fcrGo (false :: rest) i none = fcrGo rest (i + 1) none from rfl,
          ihnone]
        rcases Nat.lt_trichotomy k i with hki | hki | hki
        · constructor
          · rintro ⟨h1, -, -⟩; omega
          · rintro ⟨h1, -, -⟩; omega
        · subst hki
          constructor
          · rintro ⟨h1, -, -⟩; omega
          · rintro ⟨-, -, h3⟩
            rw [show k - k = 0 from by omega] at h3
            simp at h3
        · have he : k - i = (k - (i + 1)) + 1 := by omega
          rw [he, List.getD_cons_succ]
          constructor
          · rintro ⟨h1, h2, h3⟩
            exact ⟨by omega, ⟨by simp only [List.length_cons]; omega, h3⟩⟩
          · rintro ⟨h1, h2, h3⟩
            exact ⟨by omega, ⟨by simp only [List.length_cons] at h2; omega, h3⟩⟩
      · rw [show fcrGo (true :: rest) i none = fcrGo rest (i + 1) (some i) from rfl,
          ihsome i (Nat.lt_succ_self i)]
        rcases Nat.lt_trichotomy k i with hki | hki | hki
        · constructor
          · rintro (⟨h1, -⟩ | ⟨h1, -, -⟩) <;> omega
          · rintro ⟨h1, -, -⟩; omega
        · subst hki
          constructor
          · rintro -
            refine ⟨Nat.le_refl k, ?_, ?_⟩
            · simp only [List.length_cons]; omega
            · rw [show k - k = 0 from by omega]; rfl
          · rintro -
            exact Or.inl ⟨Nat.le_refl k, by omega⟩
        · have he : k - i = (k - (i + 1)) + 1 := by omega
          rw [he, List.getD_cons_succ]
          constructor
          · rintro (⟨-, h2⟩ | ⟨h1, h2, h3⟩)
            · omega
            · exact ⟨by omega, ⟨by simp only [List.length_cons]; omega, h3⟩⟩
          · rintro ⟨h1, h2, h3⟩
            exact Or.inr ⟨by omega, ⟨by simp only [List.length_cons] at h2; omega, h3⟩⟩
    · intro s hs
      cases b
      · rw [show fcrGo (false :: rest) i (some s)
              = (s, i - 1) :: fcrGo rest (i + 1) none from rfl,
          memRegions_cons, ihnone]
        rcases Nat.lt_trichotomy k i with hki | hki | hki
        · constructor
          · rintro (⟨h1, -⟩ | ⟨h1, -, -⟩)
            · exact Or.inl ⟨h1, hki⟩
            · omega
          · rintro (⟨h1, -⟩ | ⟨h1, -, -⟩)
            · exact Or.inl ⟨h1, by omega⟩
            · omega
        · subst hki
          constructor
          · rintro (⟨-, h2⟩ | ⟨h1, -, -⟩) <;> omega
          · rintro (⟨-, h2⟩ | ⟨-, -, h3⟩)
            · omega
            · rw [show k - k = 0 from by omega] at h3
              simp at h3
        · have he : k - i = (k - (i + 1)) + 1 := by omega
          rw [he, List.getD_cons_succ]
          constructor
          · rintro (⟨-, h2⟩ | ⟨h1, h2, h3⟩)
            · omega
            · exact Or.inr ⟨by omega, ⟨by simp only [List.length_cons]; omega, h3⟩⟩
          · rintro (⟨-, h2⟩ | ⟨h1, h2, h3⟩)
            · omega
            · exact Or.inr ⟨by omega, ⟨by simp only [List.length_cons] at h2; omega, h3⟩⟩
      · rw [show fcrGo (true :: rest) i (some s) = fcrGo rest (i + 1) (some s) from rfl,
          ihsome s (by omega)]
        rcases Nat.lt_trichotomy k i with hki | hki | hki
        · constructor
          · rintro (⟨h1, -⟩ | ⟨h1, -, -⟩)
            · exact Or.inl ⟨h1, hki⟩
            · omega
          · rintro (⟨h1, -⟩ | ⟨h1, -, -⟩)
            · exact Or.inl ⟨h1, by omega⟩
            · omega
        · subst hki
          constructor
          · rintro (⟨h1, -⟩ | ⟨h1, -, -⟩)
            · refine Or.inr ⟨Nat.le_refl k, ?_, ?_⟩
              · simp only [List.length_cons]; omega
              · rw [show k - k = 0 from by omega]; rfl
            · omega
          · rintro (⟨-, h2⟩ | ⟨-, -, -⟩)
            · omega
            · exact Or.inl ⟨by omega, by omega⟩
        · have he : k - i = (k - (i + 1)) + 1 := by omega
          rw [he, List.getD_cons_succ]
          constructor
          · rintro (⟨-, h2⟩ | ⟨h1, h2, h3⟩)
            · omega
            · exact Or.inr ⟨by omega, ⟨by simp only [List.length_cons]; omega, h3⟩⟩
          · rintro (⟨-, h2⟩ | ⟨h1, h2, h3⟩)
            · omega
            · exact Or.inr ⟨by omega, ⟨by simp only [List.length_cons] at h2; omega, h3⟩⟩

/-- A region list is a chain when its intervals are well-formed, start at or
after the lower bound, and each interval ends strictly before the next
begins. -/
def ChainOK : Nat → List (Nat × Nat) → Prop
  | _, [] => True
  | lo, p :: rs => lo ≤ p.1 ∧ p.1 ≤ p.2 ∧ ChainOK (p.2 + 1) rs

theorem chainOK_mono : ∀ (rs : List (Nat × Nat)) (lo lo' : Nat), lo' ≤ lo →
    ChainOK lo rs → ChainOK lo' rs := by
  intro rs
  induction rs with
  | nil => intro lo lo' h hc; trivial
  | cons p rs ih =>
    rintro lo lo' h ⟨h1, h2, h3⟩
    exact ⟨Nat.le_trans h h1, h2, h3⟩

/-- The scan loop emits a chain of intervals. -/
theorem fcrGo_chain (mask : List Bool) : ∀ i : Nat,
    ChainOK i (fcrGo mask i none) ∧
    ∀ s, s < i → ChainOK s (fcrGo mask i (some s)) := by
  induction mask with
  | nil =>
    intro i
    refine ⟨trivial, fun s hs => ⟨Nat.le_refl s, by omega, trivial⟩⟩
  | cons b rest ih =>
    intro i
    obtain ⟨ihn, ihs⟩ := ih (i + 1)
    constructor
    · cases b
      · exact chainOK_mono _ _ _ (Nat.le_succ i) ihn
      · exact ihs i (Nat.lt_succ_self i)
    · intro s hs
      cases b
      · exact ⟨Nat.le_refl s, by omega, chainOK_mono _ _ _ (by omega) ihn⟩
      · exact ihs s (by omega)

theorem chainOK_bounds : ∀ (rs : List (Nat × Nat)) (lo : Nat), ChainOK lo rs →
    ∀ p ∈ rs, lo ≤ p.1 ∧ p.1 ≤ p.2 := by
  intro rs
  induction rs with
  | nil => intro lo hc p hp; cases hp
  | cons q rs ih =>
    rintro lo ⟨h1, h2, h3⟩ p hp
    rcases List.mem_cons.mp hp with rfl | hp
    · exact ⟨h1, h2⟩
    · have := ih (q.2 + 1) h3 p hp
      exact ⟨by omega, this.2⟩

theorem chainOK_pairwise : ∀ (rs : List (Nat × Nat)) (lo : Nat), ChainOK lo rs →
    rs.Pairwise (fun p q => p.2 < q.1) := by
  intro rs
  induction rs with
  | nil => intro lo hc; exact List.Pairwise.nil
  | cons q rs ih =>
    rintro lo ⟨h1, h2, h3⟩
    refine List.Pairwise.cons ?_ (ih (q.2 + 1) h3)
    intro p hp
    have := chainOK_bounds rs (q.2 + 1) h3 p hp
    omega

/-- Membership characterization for _find_continuous_regions. -/
theorem find_continuous_regions_mem (mask : List Bool) (k : Nat) :
    memRegions k (DepthRegionAnalyzer._find_continuous_regions mask) ↔
      k < mask.length ∧ mask.getD k false = true := by
  have h := (fcrGo_mem mask 0 k).1
  rw [DepthRegionAnalyzer._find_continuous_regions, h]
  simp

/-- The regions of _find_continuous_regions form a chain from 0. -/
theorem find_continuous_regions_chain (mask : List Bool) :
    ChainOK 0 (DepthRegionAnalyzer._find_continuous_regions mask) :=
  (fcrGo_chain mask 0).1

/-- Looking up a mapped mask below the length evaluates the predicate on
the underlying entry. -/
theorem list_getD_map (d : List Nat) (f : Nat → Bool) : ∀ k : Nat,
    k < d.length → (d.map f).getD k false = f (d.getD k 0) := by
  induction d with
  | nil => intro k hk; cases hk
  | cons a l ih =>
    intro k hk
    cases k with
    | zero => rfl
    | succ m =>
      simp only [List.map_cons, List.getD_cons_succ]
      exact ih m (by simpa using hk)

/-! Claim theorems. -/

theorem commit_not_include (st : DepthParser.ParseState)
    (h : st.include_current = false) : DepthParser.commit st = st.sequences := by
  rcases st with ⟨seqs, cs, cda, inc⟩
  simp only at h
  subst h
  cases cs <;> cases cda <;> rfl

theorem stepLine_nil_targets (st : DepthParser.ParseState) (l : Line)
    (h : st.include_current = false) :
    (DepthParser.stepLine [] st l).include_current = false ∧
    (DepthParser.stepLine [] st l).sequences = st.sequences := by
  cases l with
  | header id =>
    refine ⟨by simp [DepthParser.stepLine], ?_⟩
    simp only [DepthParser.stepLine]
    exact commit_not_include st h
  | value v =>
    rcases st with ⟨seqs, cs, cda, inc⟩
    simp only at h
    subst h
    cases cda <;> exact ⟨rfl, rfl⟩

theorem foldl_nil_targets (file : List Line) : ∀ st : DepthParser.ParseState,
    st.include_current = false →
    ((file.foldl (DepthParser.stepLine []) st).include_current = false ∧
     (file.foldl (DepthParser.stepLine []) st).sequences = st.sequences) := by
  induction file with
  | nil => intro st h; exact ⟨h, rfl⟩
  | cons l rest ih =>
    intro st h
    have hs := stepLine_nil_targets st l h
    have hr := ih (DepthParser.stepLine [] st l) hs.1
    exact ⟨hr.1, hr.2.trans hs.2⟩

/-- C1: the claim says an empty target set means every sequence of the
source is collected. The code does the opposite: with an empty target set
the membership test `current_seq in target_sequences` never succeeds, so
parse_depth_file_filtered collects nothing, for every depth source. -/
theorem c1_empty_target_set_collects_nothing (file : List Line) :
    DepthParser.parse_depth_file_filtered [] file = [] := by
  unfold DepthParser.parse_depth_file_filtered
  have h := foldl_nil_targets file ⟨[], none, none, false⟩ rfl
  rw [commit_not_include _ h.1, h.2]

/-- C2: with source A holding chr1 and chr2, source B holding chr2 and chr3
and an empty target set, the claim expects the reader to yield exactly
chr1, chr2 and chr3. Because the underlying parse collects nothing for an
empty target set, both maps come back empty, the union of available ids is
empty, and read_sequences yields no sequences at all. -/
theorem c2_reader_empty_targets_yields_nothing :
    SynchronizedDepthReader.read_sequences
      (some [Line.header "chr1", Line.value (some 1),
             Line.header "chr2", Line.value (some 2)])
      (some [Line.header "chr2", Line.value (some 3),
             Line.header "chr3", Line.value (some 4)])
      [] none = [] := by
  rfl

/-- C3: on the depth array [0,0,3,4,5,0,0,20,20,0] with threshold 5 the
classifier returns zero regions (0,1), (5,6), (9,9), low region (2,3) and
normal regions (4,4), (7,8); with window size 2 the segment-first windowing
returns exactly the windows (mean 3.5, 2, 3), (mean 5, 4, 4) and
(mean 20, 7, 8). -/
theorem c3_end_to_end_example :
    DepthRegionAnalyzer.analyze_depth_regions [0, 0, 3, 4, 5, 0, 0, 20, 20, 0] [] 5 =
      { zero_depth := [(0, 1), (5, 6), (9, 9)]
        low_depth := [(2, 3)]
        normal_depth := [(4, 4), (7, 8)] } ∧
    DataProcessor.calculate_windowed_stats 2 [0, 0, 3, 4, 5, 0, 0, 20, 20, 0] =
      [((7 : ℚ) / 2, 2, 3), ((5 : ℚ), 4, 4), ((20 : ℚ), 7, 8)] := by
  refine ⟨by decide, ?_⟩
  have h : DataProcessor.calculate_windowed_stats 2 [0, 0, 3, 4, 5, 0, 0, 20, 20, 0] =
      [(listMean [3, 4], 2, 3), (listMean [5], 4, 4), (listMean [20, 20], 7, 8)] := rfl
  rw [h]
  norm_num [listMean]

/-- C4 counterexample: at threshold T = 0 the zero and normal classifications
overlap, because a zero-depth position also satisfies value at least T. On
the one-element array [0] both the zero list and the normal list are the
interval (0, 0), so the produced intervals are not pairwise non-overlapping
as the claim states for every threshold. -/
theorem c4_counterexample_threshold_zero :
    (DepthRegionAnalyzer.analyze_depth_regions [0] [] 0).zero_depth = [(0, 0)] ∧
    (DepthRegionAnalyzer.analyze_depth_regions [0] [] 0).normal_depth = [(0, 0)] ∧
    memRegions 0 ((DepthRegionAnalyzer.analyze_depth_regions [0] [] 0).zero_depth) ∧
    memRegions 0 ((DepthRegionAnalyzer.analyze_depth_regions [0] [] 0).normal_depth) := by
  decide

/-- C4 (amended with threshold at least 1): for every depth array of length
N at least 1 and every threshold T at least 1, the zero, low and normal
region lists of DepthRegionAnalyzer.analyze_depth_regions cover exactly the
indices 0..N-1, no index lies in two different classification lists, and
each list consists of well-formed intervals ending before N that are
pairwise non-overlapping; in particular the final index N-1 is covered, so
a run reaching it is closed there rather than dropped. -/
theorem c4_regions_partition (d : List Nat) (T : Nat) (hN : 1 ≤ d.length)
    (hT : 1 ≤ T) :
    (∀ k : Nat,
      (memRegions k (DepthRegionAnalyzer.analyze_depth_regions d [] T).zero_depth ∨
       memRegions k (DepthRegionAnalyzer.analyze_depth_regions d [] T).low_depth ∨
       memRegions k (DepthRegionAnalyzer.analyze_depth_regions d [] T).normal_depth) ↔
      k < d.length) ∧
    (∀ k : Nat,
      ¬(memRegions k (DepthRegionAnalyzer.analyze_depth_regions d [] T).zero_depth ∧
        memRegions k (DepthRegionAnalyzer.analyze_depth_regions d [] T).low_depth) ∧
      ¬(memRegions k (DepthRegionAnalyzer.analyze_depth_regions d [] T).zero_depth ∧
        memRegions k (DepthRegionAnalyzer.analyze_depth_regions d [] T).normal_depth) ∧
      ¬(memRegions k (DepthRegionAnalyzer.analyze_depth_regions d [] T).low_depth ∧
        memRegions k (DepthRegionAnalyzer.analyze_depth_regions d [] T).normal_depth)) ∧
    (∀ rs ∈ [(DepthRegionAnalyzer.analyze_depth_regions d [] T).zero_depth,
             (DepthRegionAnalyzer.analyze_depth_regions d [] T).low_depth,
             (DepthRegionAnalyzer.analyze_depth_regions d [] T).normal_depth],
      (∀ p ∈ rs, p.1 ≤ p.2 ∧ p.2 < d.length) ∧
      rs.Pairwise (fun p q => p.2 < q.1)) := by
  have hA : DepthRegionAnalyzer.analyze_depth_regions d [] T =
      { zero_depth := DepthRegionAnalyzer._find_continuous_regions
          (d.map (fun v => decide (v = 0)))
        low_depth := DepthRegionAnalyzer._find_continuous_regions
          (d.map (fun v => decide (0 < v) && decide (v < T)))
        normal_depth := DepthRegionAnalyzer._find_continuous_regions
          (d.map (fun v => decide (T ≤ v))) } := by
    simp [DepthRegionAnalyzer.analyze_depth_regions]
  have key : ∀ (f : Nat → Bool) (k : Nat),
      memRegions k (DepthRegionAnalyzer._find_continuous_regions (d.map f)) ↔
        (k < d.length ∧ f (d.getD k 0) = true) := by
    intro f k
    rw [find_continuous_regions_mem, List.length_map]
    constructor
    · rintro ⟨h1, h2⟩
      rw [list_getD_map d f k h1] at h2
      exact ⟨h1, h2⟩
    · rintro ⟨h1, h2⟩
      exact ⟨h1, by rw [list_getD_map d f k h1]; exact h2⟩
  rw [hA]
  refine ⟨?_, ?_, ?_⟩
  · intro k
    simp only [key, Bool.and_eq_true, decide_eq_true_eq]
    omega
  · intro k
    simp only [key, Bool.and_eq_true, decide_eq_true_eq]
    omega
  · intro rs hrs
    have hchain : ChainOK 0 rs := by
      simp only [List.mem_cons, List.not_mem_nil, or_false] at hrs
      rcases hrs with rfl | rfl | rfl <;>
        exact find_continuous_regions_chain _
    have hmem : ∀ k, memRegions k rs → k < d.length := by
      intro k hk
      simp only [List.mem_cons, List.not_mem_nil, or_false] at hrs
      rcases hrs with rfl | rfl | rfl <;>
        exact ((key _ k).mp hk).1
    refine ⟨?_, chainOK_pairwise rs 0 hchain⟩
    intro p hp
    have hb := chainOK_bounds rs 0 hchain p hp
    refine ⟨hb.2, ?_⟩
    exact hmem p.2 ⟨p, hp, hb.2, Nat.le_refl p.2⟩

/-- C4 witness: the amended theorem applied to the array [0, 1, 5] with
threshold 5 shows index 2 covered by one of the three region lists. -/
theorem c4_regions_partition_witness :
    memRegions 2 ((DepthRegionAnalyzer.analyze_depth_regions [0, 1, 5] [] 5).zero_depth) ∨
    memRegions 2 ((DepthRegionAnalyzer.analyze_depth_regions [0, 1, 5] [] 5).low_depth) ∨
    memRegions 2 ((DepthRegionAnalyzer.analyze_depth_regions [0, 1, 5] [] 5).normal_depth) :=
  ((c4_regions_partition [0, 1, 5] 5 (by decide) (by decide)).1 2).mpr (by decide)

/-- C9: a non-empty sequence strictly shorter than the window collapses to
a single window positioned at the middle index and carrying the arithmetic
mean of the whole sequence. -/
theorem c9_short_sequence_single_window (depths : List Nat) (W : Nat)
    (h1 : depths ≠ []) (h2 : depths.length < W) :
    SlidingWindowProcessor.calculate_sliding_window W depths =
      ([depths.length / 2],
       [((depths.map fun v : ℕ => (v : ℚ)).sum) / (depths.length : ℚ)]) := by
  unfold SlidingWindowProcessor.calculate_sliding_window
  rw [if_neg (by simpa using h1), if_pos h2]
  rfl

/-- C9 witness: the theorem evaluated on the two-element array [3, 4] with
window size 5. -/
theorem c9_short_sequence_single_window_witness :
    SlidingWindowProcessor.calculate_sliding_window 5 [3, 4] =
      ([1], [(7 : ℚ) / 2]) := by
  rw [c9_short_sequence_single_window [3, 4] 5 (by decide) (by decide)]
  norm_num

/-- C7: when both depth arrays are non-empty and their lengths differ,
plot_single_sequence produces the ValueError message carrying both lengths
and performs no effect, so no figure is created and no file written before
the error surfaces. -/
theorem c7_shape_mismatch_raises_before_render (seq_id : String)
    (hifi ont : List Nat) (regions : Option (List (Nat × Nat))) (fmt : String)
    (h1 : hifi ≠ []) (h2 : ont ≠ []) (h3 : hifi.length ≠ ont.length) :
    DepthPlotter.plot_single_sequence seq_id hifi ont regions fmt =
      ([], Except.error
        (DepthPlotter.mismatch_message seq_id hifi.length ont.length)) := by
  have hh : hifi.length > 0 := List.length_pos.mpr h1
  have ho : ont.length > 0 := List.length_pos.mpr h2
  simp only [DepthPlotter.plot_single_sequence]
  rw [if_neg (by omega), if_pos ⟨hh, ho, h3⟩]

/-- C7 witness: the theorem evaluated at arrays of lengths 1 and 2. -/
theorem c7_shape_mismatch_witness :
    DepthPlotter.plot_single_sequence "chr1" [9] [9, 9] none "png" =
      ([], Except.error (DepthPlotter.mismatch_message "chr1" 1 2)) :=
  c7_shape_mismatch_raises_before_render "chr1" [9] [9, 9] none "png"
    (by decide) (by decide) (by decide)

/-- Modelled from the spec wording, for comparison with the code: the
stored contribution of one body line is nothing for a non-integer line,
nothing for a negative value, and the value clamped to the cap 65535
otherwise. -/
def clamp_spec_contribution (v : Option Int) : List Nat :=
  match v with
  | none => []
  | some depth => if depth < 0 then [] else [min depth.toNat 65535]

theorem stepLine_value_none (targets : List String)
    (st : DepthParser.ParseState) :
    DepthParser.stepLine targets st (Line.value none) = st := by
  rcases st with ⟨seqs, cs, cda, inc⟩
  cases inc <;> cases cda <;> rfl

/-- C8: body-line handling of the depth parser agrees with the spec-side
clamping contract (skip non-integers, drop negatives, clamp above 65535,
keep in-range values), and a non-integer body line inserted anywhere in a
depth source leaves the whole parse result unchanged, so malformed value
lines never abort the parse. -/
theorem c8_body_line_clamping :
    (∀ (arr : List Nat) (v : Option Int),
      DepthParser.process_body_line arr v = arr ++ clamp_spec_contribution v) ∧
    (∀ (targets : List String) (f1 f2 : List Line),
      DepthParser.parse_depth_file_filtered targets (f1 ++ Line.value none :: f2) =
        DepthParser.parse_depth_file_filtered targets (f1 ++ f2)) := by
  constructor
  · intro arr v
    cases v with
    | none => simp [DepthParser.process_body_line, clamp_spec_contribution]
    | some depth =>
      simp only [DepthParser.process_body_line, clamp_spec_contribution]
      split_ifs <;> simp <;> omega
  · intro targets f1 f2
    simp only [DepthParser.parse_depth_file_filtered, List.foldl_append,
      List.foldl_cons, stepLine_value_none]

theorem nonzero_mean_pos (l : List Nat) (h : ∃ v ∈ l, 0 < v) :
    0 < Montage.nonzero_mean l := by
  obtain ⟨v, hv, hvpos⟩ := h
  have hmem : v ∈ l.filter (fun v => decide (0 < v)) :=
    List.mem_filter.mpr ⟨hv, by simpa using hvpos⟩
  have hne : (l.filter (fun v => decide (0 < v))).length ≠ 0 := by
    intro h0
    rw [List.length_eq_zero] at h0
    rw [h0] at hmem
    cases hmem
  unfold Montage.nonzero_mean
  rw [if_neg hne]
  apply div_pos
  · have hle : (v : ℚ) ≤ ((l.filter (fun v => decide (0 < v))).map
        (fun w : ℕ => (w : ℚ))).sum := by
      refine List.single_le_sum ?_ _ ?_
      · intro x hx
        simp only [List.mem_map] at hx
        rcases hx with ⟨w, -, rfl⟩
        exact Nat.cast_nonneg w
      · exact List.mem_map_of_mem (fun w : ℕ => (w : ℚ)) hmem
    have h1 : (1 : ℚ) ≤ (v : ℚ) := by exact_mod_cast hvpos
    linarith
  · exact_mod_cast Nat.pos_of_ne_zero hne

/-- Vertical band for the upper (HiFi) half of a combined panel: rects sit
between baseline - dh and the baseline with height in 0..dh, and lines are
horizontal within the band. -/
def topBandOK (baseline dh : ℚ) : Elem → Prop
  | Elem.rect _ y _ h _ => baseline - dh ≤ y ∧ y + h ≤ baseline ∧ 0 ≤ h ∧ h ≤ dh
  | Elem.line _ y1 _ y2 _ => baseline - dh ≤ y1 ∧ y1 ≤ baseline ∧ y2 = y1

/-- Vertical band for the lower (ONT) half of a combined panel. -/
def bottomBandOK (baseline dh : ℚ) : Elem → Prop
  | Elem.rect _ y _ h _ => baseline ≤ y ∧ y + h ≤ baseline + dh ∧ 0 ≤ h ∧ h ≤ dh
  | Elem.line _ y1 _ y2 _ => baseline ≤ y1 ∧ y1 ≤ baseline + dh ∧ y2 = y1

theorem hpx_bounds (dh m cap gc : ℚ) (hdh : 0 < dh) (hm : 0 ≤ m)
    (hcap : 0 < cap) (hle : cap ≤ gc) :
    0 ≤ dh * (min m cap / gc) ∧ dh * (min m cap / gc) ≤ dh := by
  have hgc : 0 < gc := lt_of_lt_of_le hcap hle
  have h0 : 0 ≤ min m cap := le_min hm (le_of_lt hcap)
  have h1 : min m cap ≤ gc := le_trans (min_le_right m cap) hle
  constructor
  · exact mul_nonneg (le_of_lt hdh) (div_nonneg h0 (le_of_lt hgc))
  · have h2 : min m cap / gc ≤ 1 := (div_le_one hgc).mpr h1
    calc dh * (min m cap / gc) ≤ dh * 1 :=
          mul_le_mul_of_nonneg_left h2 (le_of_lt hdh)
      _ = dh := mul_one dh

theorem listMean_nonneg (l : List Nat) : 0 ≤ listMean l := by
  unfold listMean
  apply div_nonneg
  · apply List.sum_nonneg
    intro x hx
    simp only [List.mem_map] at hx
    rcases hx with ⟨w, -, rfl⟩
    exact Nat.cast_nonneg w
  · exact Nat.cast_nonneg _

theorem windowed_stats_mean_nonneg (W : Nat) (l : List Nat) :
    ∀ w ∈ DataProcessor.calculate_windowed_stats W l, 0 ≤ w.1 := by
  intro w hw
  unfold DataProcessor.calculate_windowed_stats at hw
  split at hw
  · cases hw
  · simp only [List.mem_flatMap] at hw
    rcases hw with ⟨seg, -, hw⟩
    split at hw
    · cases hw
    · simp only [List.mem_filterMap] at hw
      rcases hw with ⟨i, -, hw⟩
      split at hw
      · rcases Option.some_inj.mp hw with rfl
        exact listMean_nonneg _
      · cases hw

theorem top_half_band (wins : List (ℚ × Nat × Nat))
    (xl xr span denom dh cap gc baseline : ℚ)
    (hdh : 0 < dh) (hcap : 0 < cap) (hgc : cap ≤ gc)
    (hmeans : ∀ w ∈ wins, 0 ≤ w.1) :
    ∀ e ∈ Montage.bar_elems_top wins xl span denom dh cap gc baseline ++
          Montage.mean_line_top wins xl xr dh cap gc baseline,
      topBandOK baseline dh e := by
  intro e he
  rcases List.mem_append.mp he with he | he
  · unfold Montage.bar_elems_top at he
    simp only [List.mem_map] at he
    rcases he with ⟨w, hw, rfl⟩
    obtain ⟨hb1, hb2⟩ := hpx_bounds dh w.1 cap gc hdh (hmeans w hw) hcap hgc
    exact ⟨by linarith, by linarith, hb1, hb2⟩
  · unfold Montage.mean_line_top at he
    split at he
    · simp at he
    · dsimp only at he
      split at he
      · rename_i havg
        simp only [List.mem_singleton] at he
        subst he
        obtain ⟨hb1, hb2⟩ := hpx_bounds dh _ cap gc hdh (le_of_lt havg) hcap hgc
        exact ⟨by linarith, by linarith, rfl⟩
      · cases he

theorem bottom_half_band (wins : List (ℚ × Nat × Nat))
    (xl xr span denom dh cap gc baseline : ℚ)
    (hdh : 0 < dh) (hcap : 0 < cap) (hgc : cap ≤ gc)
    (hmeans : ∀ w ∈ wins, 0 ≤ w.1) :
    ∀ e ∈ Montage.bar_elems_bottom wins xl span denom dh cap gc baseline ++
          Montage.mean_line_bottom wins xl xr dh cap gc baseline,
      bottomBandOK baseline dh e := by
  intro e he
  rcases List.mem_append.mp he with he | he
  · unfold Montage.bar_elems_bottom at he
    simp only [List.mem_map] at he
    rcases he with ⟨w, hw, rfl⟩
    obtain ⟨hb1, hb2⟩ := hpx_bounds dh w.1 cap gc hdh (hmeans w hw) hcap hgc
    exact ⟨le_refl _, by linarith, hb1, hb2⟩
  · unfold Montage.mean_line_bottom at he
    split at he
    · simp at he
    · dsimp only at he
      split at he
      · rename_i havg
        simp only [List.mem_singleton] at he
        subst he
        obtain ⟨hb1, hb2⟩ := hpx_bounds dh _ cap gc hdh (le_of_lt havg) hcap hgc
        exact ⟨by linarith, by linarith, rfl⟩
      · cases he

theorem cap_structure (capH capN : ℚ) :
    0 < Montage.global_cap_of capH capN ∧
    0 < Montage.dataset_cap capH (Montage.global_cap_of capH capN) ∧
    Montage.dataset_cap capH (Montage.global_cap_of capH capN) ≤
      Montage.global_cap_of capH capN ∧
    0 < Montage.dataset_cap capN (Montage.global_cap_of capH capN) ∧
    Montage.dataset_cap capN (Montage.global_cap_of capH capN) ≤
      Montage.global_cap_of capH capN := by
  unfold Montage.dataset_cap Montage.global_cap_of
  have h1 := le_max_left capH capN
  have h2 := le_max_right capH capN
  split_ifs <;> refine ⟨?_, ?_, ?_, ?_, ?_⟩ <;> linarith

theorem cap_of_pos (avg rmax : ℚ) (h : 0 < avg) :
    Montage.cap_of avg rmax = avg * rmax := by
  unfold Montage.cap_of
  rw [if_pos h]

theorem global_cap_of_pos_left (capH capN : ℚ) (h : 0 < capH) :
    Montage.global_cap_of capH capN = max capH capN := by
  unfold Montage.global_cap_of
  rw [if_neg (not_le.mpr (lt_max_of_lt_left h))]

theorem dataset_cap_pos (cap gc : ℚ) (h : 0 < cap) :
    Montage.dataset_cap cap gc = cap := by
  unfold Montage.dataset_cap
  rw [if_pos h]

/-- Unconditional shape of the upper half of build_bars_for_seq once the
panel is non-empty and the HiFi array non-empty: bars plus mean line with
the caps written through the cap helpers. -/
theorem build_bars_top_formula (hifi ont : List Nat) (xl xr oy dh rmax : ℚ)
    (W T : Nat) (hlen : ¬ (max hifi.length ont.length = 0))
    (hhl : hifi.length ≠ 0) :
    (Montage.build_bars_for_seq hifi ont xl xr oy dh rmax W T).2.1 =
      Montage.bar_elems_top (DataProcessor.calculate_windowed_stats W hifi)
        xl (xr - xl) ((max 1 (max hifi.length ont.length - 1) : Nat) : ℚ) dh
        (Montage.dataset_cap (Montage.cap_of (Montage.nonzero_mean hifi) rmax)
          (Montage.global_cap_of (Montage.cap_of (Montage.nonzero_mean hifi) rmax)
            (Montage.cap_of (Montage.nonzero_mean ont) rmax)))
        (Montage.global_cap_of (Montage.cap_of (Montage.nonzero_mean hifi) rmax)
          (Montage.cap_of (Montage.nonzero_mean ont) rmax))
        (oy + dh) ++
      Montage.mean_line_top (DataProcessor.calculate_windowed_stats W hifi)
        xl xr dh
        (Montage.dataset_cap (Montage.cap_of (Montage.nonzero_mean hifi) rmax)
          (Montage.global_cap_of (Montage.cap_of (Montage.nonzero_mean hifi) rmax)
            (Montage.cap_of (Montage.nonzero_mean ont) rmax)))
        (Montage.global_cap_of (Montage.cap_of (Montage.nonzero_mean hifi) rmax)
          (Montage.cap_of (Montage.nonzero_mean ont) rmax))
        (oy + dh) := by
  simp only [Montage.build_bars_for_seq]
  rw [if_neg hlen, if_pos hhl]

/-- Unconditional shape of the lower half of build_bars_for_seq once the
panel is non-empty and the ONT array non-empty. -/
theorem build_bars_bottom_formula (hifi ont : List Nat) (xl xr oy dh rmax : ℚ)
    (W T : Nat) (hlen : ¬ (max hifi.length ont.length = 0))
    (hol : ont.length ≠ 0) :
    (Montage.build_bars_for_seq hifi ont xl xr oy dh rmax W T).2.2.1 =
      Montage.bar_elems_bottom (DataProcessor.calculate_windowed_stats W ont)
        xl (xr - xl) ((max 1 (max hifi.length ont.length - 1) : Nat) : ℚ) dh
        (Montage.dataset_cap (Montage.cap_of (Montage.nonzero_mean ont) rmax)
          (Montage.global_cap_of (Montage.cap_of (Montage.nonzero_mean hifi) rmax)
            (Montage.cap_of (Montage.nonzero_mean ont) rmax)))
        (Montage.global_cap_of (Montage.cap_of (Montage.nonzero_mean hifi) rmax)
          (Montage.cap_of (Montage.nonzero_mean ont) rmax))
        (oy + dh) ++
      Montage.mean_line_bottom (DataProcessor.calculate_windowed_stats W ont)
        xl xr dh
        (Montage.dataset_cap (Montage.cap_of (Montage.nonzero_mean ont) rmax)
          (Montage.global_cap_of (Montage.cap_of (Montage.nonzero_mean hifi) rmax)
            (Montage.cap_of (Montage.nonzero_mean ont) rmax)))
        (Montage.global_cap_of (Montage.cap_of (Montage.nonzero_mean hifi) rmax)
          (Montage.cap_of (Montage.nonzero_mean ont) rmax))
        (oy + dh) := by
  simp only [Montage.build_bars_for_seq]
  rw [if_neg hlen, if_pos hol]

/-- C6: in a combined panel where both datasets carry a positive depth and
the max-depth-ratio is positive, the upper bars and mean line are scaled by
the shared cap max(nonzero-mean(A) times the ratio, nonzero-mean(B) times
the ratio) as denominator, after clamping each window mean to the HiFi cap
nonzero-mean(A) times the ratio; symmetrically the lower bars use the ONT
cap over the same shared denominator. -/
theorem c6_shared_cap_per_dataset_clamp (hifi ont : List Nat)
    (xl xr oy dh rmax : ℚ) (W T : Nat)
    (hr : 0 < rmax) (hh : ∃ v ∈ hifi, 0 < v) (hn : ∃ v ∈ ont, 0 < v) :
    (Montage.build_bars_for_seq hifi ont xl xr oy dh rmax W T).2.1 =
      Montage.bar_elems_top (DataProcessor.calculate_windowed_stats W hifi)
        xl (xr - xl) ((max 1 (max hifi.length ont.length - 1) : Nat) : ℚ) dh
        (Montage.nonzero_mean hifi * rmax)
        (max (Montage.nonzero_mean hifi * rmax) (Montage.nonzero_mean ont * rmax))
        (oy + dh) ++
      Montage.mean_line_top (DataProcessor.calculate_windowed_stats W hifi)
        xl xr dh (Montage.nonzero_mean hifi * rmax)
        (max (Montage.nonzero_mean hifi * rmax) (Montage.nonzero_mean ont * rmax))
        (oy + dh) ∧
    (Montage.build_bars_for_seq hifi ont xl xr oy dh rmax W T).2.2.1 =
      Montage.bar_elems_bottom (DataProcessor.calculate_windowed_stats W ont)
        xl (xr - xl) ((max 1 (max hifi.length ont.length - 1) : Nat) : ℚ) dh
        (Montage.nonzero_mean ont * rmax)
        (max (Montage.nonzero_mean hifi * rmax) (Montage.nonzero_mean ont * rmax))
        (oy + dh) ++
      Montage.mean_line_bottom (DataProcessor.calculate_windowed_stats W ont)
        xl xr dh (Montage.nonzero_mean ont * rmax)
        (max (Montage.nonzero_mean hifi * rmax) (Montage.nonzero_mean ont * rmax))
        (oy + dh) := by
  have hne : hifi ≠ [] := by
    rintro rfl
    rcases hh with ⟨v, hv, -⟩
    exact (List.not_mem_nil v) hv
  have hne2 : ont ≠ [] := by
    rintro rfl
    rcases hn with ⟨v, hv, -⟩
    exact (List.not_mem_nil v) hv
  have hm : 0 < Montage.nonzero_mean hifi := nonzero_mean_pos hifi hh
  have hm2 : 0 < Montage.nonzero_mean ont := nonzero_mean_pos ont hn
  have hch : 0 < Montage.nonzero_mean hifi * rmax := mul_pos hm hr
  have hcn : 0 < Montage.nonzero_mean ont * rmax := mul_pos hm2 hr
  have hlen : ¬ (max hifi.length ont.length = 0) := by
    have := List.length_pos.mpr hne
    omega
  have hhl : hifi.length ≠ 0 := fun h => hne (List.length_eq_zero.mp h)
  have hol : ont.length ≠ 0 := fun h => hne2 (List.length_eq_zero.mp h)
  constructor
  · rw [build_bars_top_formula hifi ont xl xr oy dh rmax W T hlen hhl,
      cap_of_pos _ _ hm, cap_of_pos _ _ hm2,
      global_cap_of_pos_left _ _ hch, dataset_cap_pos _ _ hch]
  · rw [build_bars_bottom_formula hifi ont xl xr oy dh rmax W T hlen hol,
      cap_of_pos _ _ hm, cap_of_pos _ _ hm2,
      global_cap_of_pos_left _ _ hch, dataset_cap_pos _ _ hcn]

/-- C10: with a positive panel height, every element of the upper half of a
combined panel lies in the band from baseline - depth_height to the
baseline with bar height in 0..depth_height, and every element of the lower
half in the band from the baseline to baseline + depth_height; the two
dashed mean lines obey the same bounds. -/
theorem c10_bars_within_panel (hifi ont : List Nat) (xl xr oy dh rmax : ℚ)
    (W T : Nat) (hdh : 0 < dh) :
    (∀ e ∈ (Montage.build_bars_for_seq hifi ont xl xr oy dh rmax W T).2.1,
      topBandOK (oy + dh) dh e) ∧
    (∀ e ∈ (Montage.build_bars_for_seq hifi ont xl xr oy dh rmax W T).2.2.1,
      bottomBandOK (oy + dh) dh e) := by
  obtain ⟨hgc, hch, hchle, hcn, hcnle⟩ := cap_structure
    (Montage.cap_of (Montage.nonzero_mean hifi) rmax)
    (Montage.cap_of (Montage.nonzero_mean ont) rmax)
  by_cases hsl : max hifi.length ont.length = 0
  · simp only [Montage.build_bars_for_seq]
    rw [if_pos hsl]
    constructor <;> intro e he <;> cases he
  · constructor
    · by_cases hhl : hifi.length ≠ 0
      · rw [build_bars_top_formula hifi ont xl xr oy dh rmax W T hsl hhl]
        exact top_half_band _ _ _ _ _ _ _ _ _ hdh hch hchle
          (windowed_stats_mean_nonneg W hifi)
      · simp only [Montage.build_bars_for_seq]
        rw [if_neg hsl, if_neg hhl]
        intro e he
        cases he
    · by_cases hol : ont.length ≠ 0
      · rw [build_bars_bottom_formula hifi ont xl xr oy dh rmax W T hsl hol]
        exact bottom_half_band _ _ _ _ _ _ _ _ _ hdh hcn hcnle
          (windowed_stats_mean_nonneg W ont)
      · simp only [Montage.build_bars_for_seq]
        rw [if_neg hsl, if_neg hol]
        intro e he
        cases he

/-- C6 witness: the theorem applied to the arrays [2] and [4] with positive
ratio 2, with its hypotheses discharged on the concrete input. -/
theorem c6_shared_cap_witness :
    (0 : ℚ) < 2 ∧
    (Montage.build_bars_for_seq [2] [4] 0 10 0 10 2 5 5).2.1 =
      Montage.bar_elems_top (DataProcessor.calculate_windowed_stats 5 [2])
        0 (10 - 0) ((max 1 (max [2].length [4].length - 1) : Nat) : ℚ) 10
        (Montage.nonzero_mean [2] * 2)
        (max (Montage.nonzero_mean [2] * 2) (Montage.nonzero_mean [4] * 2))
        (0 + 10) ++
      Montage.mean_line_top (DataProcessor.calculate_windowed_stats 5 [2])
        0 10 10 (Montage.nonzero_mean [2] * 2)
        (max (Montage.nonzero_mean [2] * 2) (Montage.nonzero_mean [4] * 2))
        (0 + 10) :=
  ⟨by norm_num,
   (c6_shared_cap_per_dataset_clamp [2] [4] 0 10 0 10 2 5 5 (by norm_num)
     (by decide) (by decide)).1⟩

/-- C10 witness: the theorem applied to the one-element HiFi array [1] with
panel height 1 bounds the concrete rendered bar of that panel. -/
theorem c10_bars_within_panel_witness :
    topBandOK ((0 : ℚ) + 1) 1 (Elem.rect (-(1 / 2) : ℚ) 0 1 1 "depth-top") := by
  have h : (Montage.build_bars_for_seq [1] [] 0 1 0 1 1 5 5).2.1 =
      [Elem.rect (-(1 / 2) : ℚ) 0 1 1 "depth-top", Elem.line 0 0 1 0 "mean"] := by
    rw [build_bars_top_formula [1] [] 0 1 0 1 1 5 5 (by decide) (by decide)]
    have hw : DataProcessor.calculate_windowed_stats 5 [1] = [(listMean [1], 0, 0)] := rfl
    have hnz : Montage.nonzero_mean [1] = 1 := by
      norm_num [Montage.nonzero_mean]
    have hnz0 : Montage.nonzero_mean [] = 0 := by
      norm_num [Montage.nonzero_mean]
    have hlm : listMean [1] = 1 := by
      norm_num [listMean]
    rw [hw, hnz, hnz0, hlm]
    norm_num [Montage.bar_elems_top, Montage.mean_line_top, Montage.cap_of,
      Montage.global_cap_of, Montage.dataset_cap]
  have hmem : Elem.rect (-(1 / 2) : ℚ) 0 1 1 "depth-top" ∈
      (Montage.build_bars_for_seq [1] [] 0 1 0 1 1 5 5).2.1 := by
    rw [h]
    exact List.mem_cons_self _ _
  exact (c10_bars_within_panel [1] [] 0 1 0 1 1 5 5 (by norm_num)).1 _ hmem

theorem tryCands_cons (g : ℚ → Collision.Render) (L : Collision.Layout)
    (dh c : ℚ) (rest : List ℚ) (fb : Collision.Render) :
    Collision.tryCands g L dh (c :: rest) fb =
      if Collision.acceptRender L dh (g c) = true then g c
      else Collision.tryCands g L dh rest fb := by
  simp only [Collision.tryCands, Collision.acceptRender]
  split
  · rename_i hacc
    cases hsb : Collision.scaleBBoxAbs L (g c) with
    | none => simp
    | some sb =>
      rw [hsb] at hacc
      simp only [Bool.not_eq_true'] at hacc
      simp [hacc]
  · rename_i hacc
    cases hsb : Collision.scaleBBoxAbs L (g c) with
    | none =>
      rw [hsb] at hacc
      simp at hacc
    | some sb =>
      rw [hsb] at hacc
      simp only [Bool.not_eq_true', Bool.not_eq_false] at hacc
      simp [hacc]

/-- The candidate loop returns the render of the first accepted candidate
ratio, and the fallback render when no candidate is accepted. -/
theorem tryCands_eq_find (g : ℚ → Collision.Render) (L : Collision.Layout)
    (dh : ℚ) : ∀ (cands : List ℚ) (fb : Collision.Render),
    Collision.tryCands g L dh cands fb =
      (((cands.find? (fun c => Collision.acceptRender L dh (g c))).map g).getD fb) := by
  intro cands
  induction cands with
  | nil => intro fb; rfl
  | cons c rest ih =>
    intro fb
    rw [tryCands_cons]
    cases hacc : Collision.acceptRender L dh (g c) with
    | true =>
      rw [if_pos rfl, List.find?_cons_of_pos _ (by simpa using hacc)]
      rfl
    | false =>
      rw [if_neg (by simp), List.find?_cons_of_neg _ (by simpa using hacc),
        ih fb]

/-- C5 (amended): when the default scale-bar position collides with a depth
panel, the search regenerates at the safe ratio and accepts that render when
it has no scale-bar box or no overlap; otherwise it walks the fixed ordered
candidate list and returns the render of the first accepted candidate; and
when every candidate still overlaps it terminates retaining the safe-ratio
render attempted before the candidate loop (not the last attempted one). -/
theorem c5_collision_search_characterization (g : ℚ → Collision.Render)
    (tracks : List Collision.Track) (dh pg tm hsvg dr : ℚ)
    (L : Collision.Layout)
    (hL : Collision.computeLayout tracks dh pg tm = some L)
    (hHit : Collision.defaultHits L hsvg dh dr = true) :
    Collision.collisionAvoid g tracks dh pg tm hsvg dr =
      some (if Collision.acceptRender L dh (g (Collision.safe_r L hsvg)) = true
            then g (Collision.safe_r L hsvg)
            else ((((Collision.candList L hsvg).find?
                (fun c => Collision.acceptRender L dh (g c))).map g).getD
              (g (Collision.safe_r L hsvg)))) := by
  unfold Collision.collisionAvoid
  rw [hL]
  simp only [Collision.searchRender]
  rw [if_pos hHit]
  split
  · rename_i hsb
    have hacc : Collision.acceptRender L dh (g (Collision.safe_r L hsvg)) = true := by
      unfold Collision.acceptRender
      rw [hsb]
    rw [if_pos hacc]
  · rename_i sb hsb
    cases hh : Collision.hitAny L dh sb with
    | true =>
      have hacc : Collision.acceptRender L dh (g (Collision.safe_r L hsvg)) = false := by
        unfold Collision.acceptRender
        rw [hsb]
        simp [hh]
      rw [if_pos rfl, if_neg (by simp [hacc]), tryCands_eq_find]
    | false =>
      have hacc : Collision.acceptRender L dh (g (Collision.safe_r L hsvg)) = true := by
        unfold Collision.acceptRender
        rw [hsb]
        simp [hh]
      rw [if_neg (by simp), if_pos hacc]

/-- Generator for the C5 scenario: every render the search can reach
carries a scale-bar box overlapping the top depth panel; the renders at
ratio 1 (the safe ratio and the first two candidates) and at ratio 0.95
(the last candidate) are distinguishable by their content id. -/
def cex_g : ℚ → Collision.Render := fun r =>
  if r = (19 / 20 : ℚ) then ⟨2, some (0, 25, 5, 5)⟩
  else if r = 1 then ⟨1, some (0, 25, 5, 5)⟩
  else ⟨0, none⟩

/-- Track rows for the C5 scenario: two rows at y = 50 and y = 200. -/
def cex_tracks : List Collision.Track := [⟨0, 50, 100, 15⟩, ⟨0, 200, 100, 15⟩]

/-- Layout computed from cex_tracks with depth height 10, panel gap 5 and
no top margin. -/
def cexL : Collision.Layout := ⟨0, 100, 0, 100, 50, 15, 200, 15, 25, 220, 0⟩

theorem cex_layout_eq : Collision.computeLayout cex_tracks 10 5 0 = some cexL := by
  simp only [Collision.computeLayout, cex_tracks, cexL, Collision.Layout.mk.injEq,
    Option.some.injEq]
  norm_num

theorem cex_safe_r : Collision.safe_r cexL 100 = 1 := by
  norm_num [Collision.safe_r, Collision.clamp01, Collision.rowGap, cexL]

theorem cex_candList : Collision.candList cexL 100 = [1, 1, 19 / 20] := by
  norm_num [Collision.candList, Collision.clamp01, Collision.rowGap, cexL]

theorem cex_defaultHits : Collision.defaultHits cexL 100 10 (3 / 10) = true := by
  norm_num [Collision.defaultHits, cexL]

theorem cex_g_one : cex_g 1 = ⟨1, some (0, 25, 5, 5)⟩ := by
  norm_num [cex_g]

theorem cex_g_last : cex_g (19 / 20) = ⟨2, some (0, 25, 5, 5)⟩ := by
  norm_num [cex_g]

theorem cex_bbox1 : Collision.scaleBBoxAbs cexL ⟨1, some (0, 25, 5, 5)⟩ =
    some (0, 25, 5, 30) := by
  norm_num [Collision.scaleBBoxAbs, cexL]

theorem cex_bbox2 : Collision.scaleBBoxAbs cexL ⟨2, some (0, 25, 5, 5)⟩ =
    some (0, 25, 5, 30) := by
  norm_num [Collision.scaleBBoxAbs, cexL]

theorem cex_hit : Collision.hitAny cexL 10 (0, 25, 5, 30) = true := by
  norm_num [Collision.hitAny, Collision.depthRects, Collision.overlapsQ, cexL]

theorem cex_accept1 : Collision.acceptRender cexL 10 (cex_g 1) = false := by
  rw [cex_g_one]
  unfold Collision.acceptRender
  rw [cex_bbox1]
  simp [cex_hit]

theorem cex_accept2 : Collision.acceptRender cexL 10 (cex_g (19 / 20)) = false := by
  rw [cex_g_last]
  unfold Collision.acceptRender
  rw [cex_bbox2]
  simp [cex_hit]

theorem cex_result : Collision.collisionAvoid cex_g cex_tracks 10 5 0 100 (3 / 10) =
    some (⟨1, some (0, 25, 5, 5)⟩ : Collision.Render) := by
  unfold Collision.collisionAvoid
  rw [cex_layout_eq]
  simp only [Collision.searchRender]
  rw [if_pos cex_defaultHits, cex_safe_r, cex_g_one, cex_bbox1]
  simp only [cex_hit, if_true]
  rw [cex_candList, tryCands_eq_find]
  have hfind : List.find? (fun c => Collision.acceptRender cexL 10 (cex_g c))
      [1, 1, 19 / 20] = none := by
    simp [List.find?, cex_accept1, cex_accept2]
  rw [hfind]
  rfl

/-- C5 counterexample: in the cex scenario the default position collides,
the ordered candidate list is [1, 1, 0.95] so the last attempted
regeneration is at ratio 0.95, every candidate render still overlaps a
depth panel, yet the retained render is the earlier safe-ratio render and
not the last attempted one — contradicting the claim that the search
terminates retaining the last attempted render. -/
theorem c5_counterexample_keeps_safe_not_last :
    Collision.defaultHits cexL 100 10 (3 / 10) = true ∧
    Collision.candList cexL 100 = [1, 1, 19 / 20] ∧
    ((Collision.candList cexL 100).all
      (fun c => !(Collision.acceptRender cexL 10 (cex_g c)))) = true ∧
    Collision.collisionAvoid cex_g cex_tracks 10 5 0 100 (3 / 10) ≠
      some (cex_g (19 / 20)) ∧
    Collision.collisionAvoid cex_g cex_tracks 10 5 0 100 (3 / 10) =
      some (cex_g (Collision.safe_r cexL 100)) := by
  refine ⟨cex_defaultHits, cex_candList, ?_, ?_, ?_⟩
  · rw [cex_candList]
    simp [cex_accept1, cex_accept2]
  · rw [cex_result, cex_g_last]
    simp
  · rw [cex_result, cex_safe_r, cex_g_one]

/-- C5 witness: the amended characterization applied to the cex scenario,
whose hypotheses (layout extraction succeeds and the default position
collides) are discharged concretely. -/
theorem c5_collision_search_witness :
    Collision.collisionAvoid cex_g cex_tracks 10 5 0 100 (3 / 10) =
      some (if Collision.acceptRender cexL 10 (cex_g (Collision.safe_r cexL 100)) = true
            then cex_g (Collision.safe_r cexL 100)
            else ((((Collision.candList cexL 100).find?
                (fun c => Collision.acceptRender cexL 10 (cex_g c))).map cex_g).getD
              (cex_g (Collision.safe_r cexL 100)))) :=
  c5_collision_search_characterization cex_g cex_tracks 10 5 0 100 (3 / 10) cexL
    cex_layout_eq cex_defaultHits
